import Mathlib

/-!
# Verification of the multi-transport MCP session layer

Shallow embedding of the core of the `project-backlog-mcp` server:

* the capability and token model (`src/types.ts`);
* the `AuthManager` (`src/auth.ts`): issue / verify / revoke / list /
  garbage-collect bearer credentials;
* the canonical MCP message handler (`src/handlers/mcp-message.ts` and the
  identical copy inlined in `src/index.ts`), restricted to the `tools/call`
  branch that the claims are about;
* the line-delimited streaming transport (`src/transports/http-stream.ts`);
* the `SSEManager` connection registry (`src/sse-manager.ts`) together with
  its heartbeat / staleness-sweep timers, and the admin endpoints of
  `src/index.ts` and `src/transports/sse.ts`.

Modelling conventions:

* JavaScript `Date` values are milliseconds since the epoch (`Nat`).
* JavaScript `Map` is an insertion-ordered association list
  (`List (κ × α)`); `Map.set` replaces in place or appends, `Map.delete`
  removes, exactly as in V8.  JavaScript `Set` is a duplicate-free list.
* `jwt.sign` / `jwt.verify` (the external `jsonwebtoken` library, keyed by
  the server-wide secret) are oracles: the signed string produced by
  `generateToken` is an explicit parameter, and verification is a parameter
  `jwtVerify : String → Option JWTPayload` returning `none` on signature
  failure, malformed input, or a JWT-level expiry failure.
* Functions that `throw` in TypeScript return `Except String _`; functions
  that merely return `null` return `Option _`.
-/

namespace Backlog

/-! ## JavaScript `Map` / `Set` on association lists -/

/-- `Map.prototype.get`, on an insertion-ordered association list. -/
def mapGet {κ α : Type} [DecidableEq κ] : List (κ × α) → κ → Option α
  | [], _ => none
  | (k', v) :: rest, k => if k' = k then some v else mapGet rest k

/-- `Map.prototype.set`: replace in place if the key exists, else append. -/
def mapSet {κ α : Type} [DecidableEq κ] : List (κ × α) → κ → α → List (κ × α)
  | [], k, v => [(k, v)]
  | (k', v') :: rest, k, v =>
      if k' = k then (k, v) :: rest else (k', v') :: mapSet rest k v

/-- `Map.prototype.delete` (the value-returning boolean is taken separately
where the source uses it). -/
def mapDelete {κ α : Type} [DecidableEq κ] : List (κ × α) → κ → List (κ × α)
  | [], _ => []
  | (k', v') :: rest, k =>
      if k' = k then mapDelete rest k else (k', v') :: mapDelete rest k

/-- `Set.prototype.add` on a duplicate-free list. -/
def setAdd {κ : Type} [DecidableEq κ] (s : List κ) (k : κ) : List κ :=
  if k ∈ s then s else s ++ [k]

/-! ## Capability & token model (`src/types.ts`) -/

/-- The three credential kinds (`'master' | 'team' | 'readonly'`). -/
inductive TokenType : Type
  | master
  | team
  | readonly
deriving DecidableEq

/-- `PERMISSION_SETS` from `src/types.ts`, verbatim. -/
def PERMISSION_SETS : TokenType → List String
  | .master =>
      ["diagrams:read", "diagrams:write",
       "projects:read", "projects:write",
       "stories:read", "stories:write",
       "features:read", "features:write",
       "actors:read", "actors:write",
       "utilities:read", "utilities:write",
       "admin:read", "admin:write"]
  | .team =>
      ["diagrams:read", "diagrams:write",
       "projects:read", "projects:write",
       "stories:read", "stories:write",
       "features:read", "features:write",
       "actors:read", "actors:write",
       "utilities:read", "utilities:write"]
  | .readonly =>
      ["diagrams:read",
       "projects:read",
       "stories:read",
       "features:read",
       "actors:read",
       "utilities:read"]

/-- `TOOL_PERMISSIONS` from `src/types.ts`, verbatim, as the static table. -/
def TOOL_PERMISSIONS : List (String × List String) :=
  [("create_diagram", ["diagrams:write"]),
   ("list_diagrams", ["diagrams:read"]),
   ("get_diagram", ["diagrams:read"]),
   ("update_diagram", ["diagrams:write"]),
   ("get_diagram_png", ["diagrams:read"]),
   ("get_diagram_plantuml_url", ["diagrams:read"]),
   ("get_diagram_definition", ["diagrams:read"]),
   ("update_diagram_definition", ["diagrams:write"]),
   ("update_diagram_graphic", ["diagrams:write"]),
   ("create_project", ["projects:write"]),
   ("list_projects", ["projects:read"]),
   ("get_project_tree", ["projects:read"]),
   ("get_story_tree", ["stories:read"]),
   ("update_story", ["stories:write"]),
   ("refresh_feature_types", ["features:write"]),
   ("list_feature_types", ["features:read"]),
   ("add_feature_to_story", ["features:write"]),
   ("add_child_feature", ["features:write"]),
   ("adopt_child_feature", ["features:write"]),
   ("add_actor", ["actors:write"]),
   ("add_story_to_actor", ["actors:write"]),
   ("normalize_tasks", ["utilities:write"])]

/-- The key set of `allHandlers` in `src/index.ts`: the spread of the
`handlers` objects of the diagram, project, story, feature, actor and
utility tool modules, in spread order. -/
def allHandlerNames : List String :=
  ["create_diagram", "list_diagrams", "get_diagram", "update_diagram",
   "get_diagram_png", "get_diagram_plantuml_url", "get_diagram_definition",
   "update_diagram_definition", "update_diagram_graphic",
   "create_project", "list_projects", "get_project_tree",
   "get_story_tree", "update_story",
   "refresh_feature_types", "list_feature_types", "add_feature_to_story",
   "add_child_feature", "adopt_child_feature",
   "add_actor", "add_story_to_actor",
   "normalize_tasks"]

/-- The `AuthToken` record (`src/types.ts`): one issued bearer credential. -/
structure AuthToken : Type where
  id : String
  type : TokenType
  permissions : List String
  expiresAt : Option Nat
  createdAt : Nat
  lastUsed : Option Nat
  description : Option String
deriving DecidableEq

/-- The `JWTPayload` record (`src/types.ts`); `iat`/`exp` are in seconds. -/
structure JWTPayload : Type where
  tokenId : String
  type : TokenType
  permissions : List String
  iat : Nat
  exp : Option Nat
deriving DecidableEq

/-- `AuthManager.hasPermission` (`src/auth.ts`): conjunction over the
required permissions. -/
def hasPermission (token : AuthToken) (requiredPermissions : List String) : Bool :=
  requiredPermissions.all (fun permission => token.permissions.contains permission)

/-! ## Auth Manager state (`src/auth.ts`) -/

/-- The mutable state of one `AuthManager`: the direct token store
(`tokens : Map<string, AuthToken>`) and the revocation set
(`revokedTokens : Set<string>`). -/
structure AuthState : Type where
  tokens : List (String × AuthToken)
  revokedTokens : List String
deriving DecidableEq

/-- `'0' ≤ c ≤ '9'`, the `\d` character class of the duration regex. -/
def isDigitChar (c : Char) : Bool :=
  '0' ≤ c && c ≤ '9'

/-- Decimal value of a digit string (what `parseInt` returns on `\d+`). -/
def digitsToNat (cs : List Char) : Nat :=
  cs.foldl (fun a c => a * 10 + (c.toNat - '0'.toNat)) 0

/-- The match of the regex `^(\d+)([smhd])$` in `parseDuration`:
`some (value, unit)` when the input is a nonempty digit string followed by
exactly one unit character, `none` otherwise. -/
def parseDurationMatch (cs : List Char) : Option (Nat × Char) :=
  match cs.getLast? with
  | none => none
  | some u =>
      let ds := cs.dropLast
      if ds ≠ [] && ds.all isDigitChar &&
          (u = 's' || u = 'm' || u = 'h' || u = 'd') then
        some (digitsToNat ds, u)
      else
        none

/-- The duration syntax as the specification words it: a nonempty string of
decimal digits followed by exactly one unit character among
`s`, `m`, `h`, `d`.  This is the spec-side predicate, to be compared with
the source's regex match `parseDurationMatch`. -/
def SpecDurationFormat (s : String) : Prop :=
  ∃ ds u, s.data = ds ++ [u] ∧ ds ≠ [] ∧ (∀ c ∈ ds, isDigitChar c = true) ∧
    (u = 's' ∨ u = 'm' ∨ u = 'h' ∨ u = 'd')

/-- `AuthManager.parseDuration` (`src/auth.ts`): milliseconds from a
`<integer><unit>` duration; a thrown `Error` becomes `Except.error`. -/
def parseDuration (duration : String) : Except String Nat :=
  match parseDurationMatch duration.data with
  | none => .error "Invalid duration format. Use format like: 30s, 5m, 2h, 7d"
  | some (value, unit) =>
      if unit = 's' then .ok (value * 1000)
      else if unit = 'm' then .ok (value * 60 * 1000)
      else if unit = 'h' then .ok (value * 60 * 60 * 1000)
      else if unit = 'd' then .ok (value * 24 * 60 * 60 * 1000)
      else .error "Invalid duration unit"

/-- The JavaScript truthiness coercion `description && { description }` in
`generateToken`: an empty-string description is dropped. -/
def descField (description : Option String) : Option String :=
  match description with
  | some d => if d = "" then none else some d
  | none => none

/-- `AuthManager.generateToken` (`src/auth.ts`).  `tokenId` stands for the
fresh `uuidv4()` and `signedToken` for the string produced by `jwt.sign`;
`now` is the current time in ms.  Returns the token string and the updated
state, or the `Error` thrown by `parseDuration`. -/
def generateToken (st : AuthState) (type : TokenType) (expiresIn : Option String)
    (description : Option String) (tokenId signedToken : String) (now : Nat) :
    Except String (String × AuthState) :=
  let permissions := PERMISSION_SETS type
  match expiresIn with
  | none =>
      let authToken : AuthToken :=
        { id := tokenId, type := type, permissions := permissions,
          expiresAt := none, createdAt := now, lastUsed := none,
          description := descField description }
      .ok (signedToken, { st with tokens := mapSet st.tokens signedToken authToken })
  | some d =>
      match parseDuration d with
      | .error e => .error e
      | .ok duration =>
          let authToken : AuthToken :=
            { id := tokenId, type := type, permissions := permissions,
              expiresAt := some (now + duration), createdAt := now,
              lastUsed := none, description := descField description }
          .ok (signedToken, { st with tokens := mapSet st.tokens signedToken authToken })

/-- The record built by `generateToken` before it is stored (abbreviation
for stating the round-trip results). -/
def issuedRecord (ty : TokenType) (tokenId : String) (expiresAt : Option Nat)
    (now : Nat) (description : Option String) : AuthToken :=
  { id := tokenId, type := ty, permissions := PERMISSION_SETS ty,
    expiresAt := expiresAt, createdAt := now, lastUsed := none,
    description := descField description }

/-- The transient `AuthToken` synthesized from an embedded JWT payload in
`verifyToken`, including the `payload.tokenId || 'unknown'` coercion. -/
def fromJWTPayload (payload : JWTPayload) (now : Nat) : AuthToken :=
  { id := if payload.tokenId = "" then "unknown" else payload.tokenId,
    type := payload.type,
    permissions := payload.permissions,
    createdAt := payload.iat * 1000,
    expiresAt := payload.exp.map (fun e => e * 1000),
    lastUsed := some now,
    description := none }

/-- `AuthManager.verifyToken` (`src/auth.ts`).  `jwtVerify` is the
`jwt.verify(·, secret)` oracle; `now` is the current time in ms.  Returns
the verified record (or `none`) together with the updated state (expired
direct-store entries are purged, `lastUsed` is refreshed in place). -/
def verifyToken (jwtVerify : String → Option JWTPayload) (st : AuthState)
    (token : String) (now : Nat) : Option AuthToken × AuthState :=
  if token ∈ st.revokedTokens then
    (none, st)
  else
    match mapGet st.tokens token with
    | some authToken =>
        match authToken.expiresAt with
        | some e =>
            if e < now then
              (none, { st with tokens := mapDelete st.tokens token })
            else
              let updated := { authToken with lastUsed := some now }
              (some updated, { st with tokens := mapSet st.tokens token updated })
        | none =>
            let updated := { authToken with lastUsed := some now }
            (some updated, { st with tokens := mapSet st.tokens token updated })
    | none =>
        match jwtVerify token with
        | some payload =>
            -- the source re-checks the direct store here; in this branch the
            -- lookup is necessarily `none`, the code is kept for fidelity
            match mapGet st.tokens token with
            | some authToken =>
                let updated := { authToken with lastUsed := some now }
                (some updated, { st with tokens := mapSet st.tokens token updated })
            | none => (some (fromJWTPayload payload now), st)
        | none => (none, st)

/-- `AuthManager.revokeToken` (`src/auth.ts`): add to the revocation set
unconditionally, return whether the direct store deleted anything. -/
def revokeToken (st : AuthState) (token : String) : Bool × AuthState :=
  ((mapGet st.tokens token).isSome,
   { tokens := mapDelete st.tokens token,
     revokedTokens := setAdd st.revokedTokens token })

/-- `AuthManager.listTokens` (`src/auth.ts`): all non-expired records of the
direct store. -/
def listTokens (st : AuthState) (now : Nat) : List AuthToken :=
  (st.tokens.map (fun p => p.2)).filter
    (fun token =>
      match token.expiresAt with
      | none => true
      | some e => decide (now < e))

/-- `AuthManager.cleanup` (`src/auth.ts`): drop expired entries from the
direct store (net effect of the delete-while-iterating loop). -/
def cleanup (st : AuthState) (now : Nat) : AuthState :=
  { st with
    tokens := st.tokens.filter
      (fun p =>
        match p.2.expiresAt with
        | none => true
        | some e => !(decide (e < now))) }

/-- The record stored for the `index`-th statically provisioned token in the
`AuthManager` constructor. -/
def staticRecord (index : Nat) (now : Nat) : AuthToken :=
  { id := "static-" ++ toString index,
    type := .master,
    permissions := PERMISSION_SETS .master,
    expiresAt := none,
    createdAt := now,
    lastUsed := none,
    description := some ("Initial static token " ++ toString (index + 1)) }

/-- The `initialTokens.forEach((token, index) => …)` loop of the
`AuthManager` constructor, with the running index made explicit. -/
def addStatics (m : List (String × AuthToken)) (index : Nat) (now : Nat) :
    List String → List (String × AuthToken)
  | [] => m
  | token :: rest => addStatics (mapSet m token (staticRecord index now)) (index + 1) now rest

/-- The `AuthManager` constructor (`src/auth.ts`): empty store and
revocation set, then the static tokens provisioned as `master` records. -/
def initAuthState (initialTokens : List String) (now : Nat) : AuthState :=
  { tokens := addStatics [] 0 now initialTokens,
    revokedTokens := [] }

/-- One state-changing `AuthManager` call, for process-lifetime invariants.
`verify` carries its own `jwt.verify` oracle and call time; `generate`
carries the fresh uuid, the signed string and the call time. -/
inductive AuthOp : Type
  | generate (type : TokenType) (expiresIn : Option String)
      (description : Option String) (tokenId signedToken : String) (now : Nat)
  | verify (jwtVerify : String → Option JWTPayload) (token : String) (now : Nat)
  | revoke (token : String)
  | sweep (now : Nat)

/-- Effect of one `AuthOp` on the state (a failed `generateToken` leaves the
state unchanged: the `throw` happens before the store is touched). -/
def applyAuthOp (st : AuthState) : AuthOp → AuthState
  | .generate type expiresIn description tokenId signedToken now =>
      match generateToken st type expiresIn description tokenId signedToken now with
      | .ok (_, st') => st'
      | .error _ => st
  | .verify jwtVerify token now => (verifyToken jwtVerify st token now).2
  | .revoke token => (revokeToken st token).2
  | .sweep now => cleanup st now

/-- A whole sequence of `AuthManager` calls. -/
def applyAuthOps (st : AuthState) (ops : List AuthOp) : AuthState :=
  ops.foldl applyAuthOp st

/-- `True` when the operation revokes the given token string. -/
def opRevokes (op : AuthOp) (t : String) : Prop :=
  match op with
  | .revoke t' => t' = t
  | _ => False

/-- `True` when the operation is a `generateToken` call whose signed output
collides with the given token string (never happens for fresh uuids). -/
def opSignsAs (op : AuthOp) (t : String) : Prop :=
  match op with
  | .generate _ _ _ _ signedToken _ => signedToken = t
  | _ => False

/-- The process-lifetime invariant for a statically provisioned token: not
revoked, and the direct store still maps it to its `static-<index>` master
record, `lastUsed` aside (verification refreshes `lastUsed` in place). -/
def storedAsStaticMaster (st : AuthState) (t : String) (index now0 : Nat) : Prop :=
  t ∉ st.revokedTokens ∧
  ∃ lu, mapGet st.tokens t = some ({ staticRecord index now0 with lastUsed := lu })

/-! ## Message dispatcher, `tools/call` branch
(`src/handlers/mcp-message.ts`, identically inlined in `src/index.ts`) -/

/-- Required capabilities for a tool name:
`TOOL_PERMISSIONS[name] || []`. -/
def requiredPermissionsFor (name : String) : List String :=
  (mapGet TOOL_PERMISSIONS name).getD []

/-- Outcome of the `tools/call` branch of `handleMCPMessage`, up to the
handler invocation itself (handler results and exceptions pass through). -/
inductive ToolCallOutcome : Type
  | insufficientPermissions
  | unknownTool
  | invoked (name : String)
deriving DecidableEq

/-- The `tools/call` branch of `handleMCPMessage`: permission check first
(`Insufficient permissions for this tool`), then handler lookup
(`Unknown tool: <name>`), then invocation. -/
def toolsCall (authToken : AuthToken) (name : String) : ToolCallOutcome :=
  if !hasPermission authToken (requiredPermissionsFor name) then
    .insufficientPermissions
  else if name ∉ allHandlerNames then
    .unknownTool
  else
    .invoked name

/-! ## Streaming transport (`src/transports/http-stream.ts`) -/

/-- One line written to the streaming response channel: a success line
`{result}`, a handler-error line (`code -32603`) or a parse-error line
(`code -32700`). -/
inductive OutLine (ρ : Type) : Type
  | response (r : ρ)
  | handlerError (msg : String)
  | parseError (msg : String)
deriving DecidableEq

/-- JavaScript `String.prototype.split('\n')`, on the character sequence:
the segments between newlines, empty segments kept, result never empty. -/
def splitOnNewline : List Char → List (List Char)
  | [] => [[]]
  | c :: rest =>
      match splitOnNewline rest with
      | [] => [[]]
      | seg :: segs =>
          if c = '\n' then [] :: seg :: segs else (c :: seg) :: segs

/-- JavaScript `String.prototype.trim()`, on the character sequence:
whitespace stripped from both ends. -/
def jsTrim (cs : List Char) : List Char :=
  ((cs.dropWhile Char.isWhitespace).reverse.dropWhile Char.isWhitespace).reverse

/-- Buffering step of the `data` handler:
`buffer += chunk; lines = buffer.split('\n'); buffer = lines.pop() || ''`.
Returns the complete lines and the new buffer. -/
def splitChunk (buffer chunk : List Char) : List (List Char) × List Char :=
  let lines := splitOnNewline (buffer ++ chunk)
  (lines.dropLast, (lines.getLast?).getD [])

/-- Processing of one complete line, abstracted over `JSON.parse`
(`parse`, `none` = throw) and the awaited `handleMCPMessage` call
(`handle`, `Except.error` = throw): empty lines are skipped, a parse
failure yields a parse-error line, a handler failure an internal-error
line, success a response line.  Total: nothing terminates the stream. -/
def processLine {μ ρ : Type} (parse : List Char → Option μ)
    (handle : μ → Except String ρ) (line : List Char) : Option (OutLine ρ) :=
  let trimmedLine := jsTrim line
  if trimmedLine = [] then none
  else
    match parse trimmedLine with
    | none => some (.parseError "Parse error")
    | some message =>
        match handle message with
        | .ok response => some (.response response)
        | .error e => some (.handlerError e)

/-- The whole connection under sequential chunk delivery: each `data`
event's batch of complete lines is fully processed (its handler calls
resolving) before the next chunk arrives.  Output is the concatenation of
the per-line results. -/
def processChunksSeq {μ ρ : Type} (parse : List Char → Option μ)
    (handle : μ → Except String ρ) : List (List Char) → List Char → List (OutLine ρ)
  | [], _ => []
  | c :: cs, buffer =>
      let split := splitChunk buffer c
      (split.1.filterMap (processLine parse handle)) ++
        processChunksSeq parse handle cs split.2

/-- The complete input lines of a chunk sequence, in arrival order, under
the same buffering discipline. -/
def streamLines (buffer : List Char) : List (List Char) → List (List Char)
  | [] => []
  | c :: cs =>
      (splitChunk buffer c).1 ++ streamLines (splitChunk buffer c).2 cs

/-- A configuration of the streaming connection under Node's event loop:
the line buffer, the chunks not yet delivered, the still-running `data`
handler invocations (each with its remaining lines, in start order), and
the response lines written so far. -/
structure StreamCfg (ρ : Type) : Type where
  buffer : List Char
  pending : List (List Char)
  tasks : List (List (List Char))
  output : List (OutLine ρ)
deriving DecidableEq

/-- Small-step semantics of the `data` handler under the event loop.
`arrive`: a `data` event fires; its synchronous prefix (buffer append,
split, pop) runs atomically and a new handler invocation with the complete
lines is started.  `work`: any running invocation processes its next line
(parse, awaited handler call, response write) and then yields at the next
`await`.  Because the `data` callback is `async` and the emitter does not
await it, an invocation suspended at an `await` does NOT block later `data`
events or the other invocations they spawn. -/
inductive StreamStep {μ ρ : Type} (parse : List Char → Option μ)
    (handle : μ → Except String ρ) : StreamCfg ρ → StreamCfg ρ → Prop
  | arrive (buffer c : List Char) (rest : List (List Char))
      (tasks : List (List (List Char)))
      (output : List (OutLine ρ)) (lines : List (List Char)) (buffer' : List Char) :
      splitChunk buffer c = (lines, buffer') →
      StreamStep parse handle
        ⟨buffer, c :: rest, tasks, output⟩
        ⟨buffer', rest, tasks ++ [lines], output⟩
  | work (buffer : List Char) (pending : List (List Char))
      (pre : List (List (List Char)))
      (l : List Char) (ls : List (List Char)) (post : List (List (List Char)))
      (output : List (OutLine ρ)) :
      StreamStep parse handle
        ⟨buffer, pending, pre ++ (l :: ls) :: post, output⟩
        ⟨buffer, pending, pre ++ ls :: post,
         output ++ (processLine parse handle l).toList⟩

/-! ## SSE connection registry (`src/sse-manager.ts`) -/

/-- The transport-level response sink of one push connection.
`headersSent` is Express's `response.headersSent`; `closed` means the
response stream has ended (by `response.end()` or client disconnect). -/
structure Sink : Type where
  headersSent : Bool
  closed : Bool
deriving DecidableEq

/-- `response.end()`: flushes headers if needed and closes the stream. -/
def endSink (_s : Sink) : Sink :=
  { headersSent := true, closed := true }

/-- One registry entry (`SSEConnection` minus the response object, which
lives in the sink store keyed by the same connection id). -/
structure SSEConnection : Type where
  authToken : AuthToken
  connectedAt : Nat
  lastActivity : Nat
deriving DecidableEq

/-- The `SSEManager` state: the connection map plus the state of every
response sink ever registered (sinks outlive their registry entries). -/
structure RegState : Type where
  connections : List (String × SSEConnection)
  sinks : List (String × Sink)
deriving DecidableEq

/-- `SSEManager.removeConnection` (`src/sse-manager.ts`): no-op when the id
is absent; otherwise calls `response.end()` ONLY when
`response.headersSent` is false (the source's check), then deletes the
entry.  The `try/catch` around `end()` is a no-op in the model. -/
def removeConnection (st : RegState) (connectionId : String) : RegState :=
  match mapGet st.connections connectionId with
  | none => st
  | some _ =>
      let sinks' :=
        match mapGet st.sinks connectionId with
        | some s => if !s.headersSent then mapSet st.sinks connectionId (endSink s) else st.sinks
        | none => st.sinks
      { connections := mapDelete st.connections connectionId, sinks := sinks' }

/-- `SSEManager.sendToConnection`: `false` for an unknown id; otherwise the
framed write either succeeds (`writeOk = true`, refresh `lastActivity`) or
throws (`writeOk = false`, the broken connection is removed).  `writeOk` is
the outcome of the underlying `response.write`, resolved by the
environment. -/
def sendToConnection (st : RegState) (connectionId : String) (writeOk : Bool)
    (now : Nat) : Bool × RegState :=
  match mapGet st.connections connectionId with
  | none => (false, st)
  | some c =>
      if writeOk then
        let updated : SSEConnection := { c with lastActivity := now }
        (true, { st with connections := mapSet st.connections connectionId updated })
      else
        (false, removeConnection st connectionId)

/-- `SSEManager.addConnection`: insert the entry (with a fresh sink whose
headers are already sent — the SSE transport calls `writeHead` before
registering), then send the `connection-status` event on the new channel.
`connectionId` stands for the fresh `uuidv4()`, `statusWriteOk` for the
outcome of the connection-status write. -/
def addConnection (st : RegState) (connectionId : String) (authToken : AuthToken)
    (statusWriteOk : Bool) (now : Nat) : RegState :=
  let st' : RegState :=
    { connections := mapSet st.connections connectionId
        ({ authToken := authToken, connectedAt := now, lastActivity := now }),
      sinks := mapSet st.sinks connectionId ({ headersSent := true, closed := false }) }
  (sendToConnection st' connectionId statusWriteOk now).2

/-- Net effect of `SSEManager.broadcast` restricted to the heartbeat timer:
iterate the entries in order; a successful write refreshes
`lastActivity` to the tick time, a throwing write removes the entry.
`outcome` gives each connection's write result. -/
def heartbeatStep (conns : List (String × SSEConnection)) (outcome : String → Bool)
    (now : Nat) : List (String × SSEConnection) :=
  (conns.filter (fun p => outcome p.1)).map
    (fun p => (p.1, { p.2 with lastActivity := now }))

/-- The stale set computed by the cleanup timer of `SSEManager.startCleanup`:
entries whose `lastActivity` is more than `5 * 60 * 1000` ms old. -/
def staleConnections (conns : List (String × SSEConnection)) (now : Nat) :
    List (String × SSEConnection) :=
  conns.filter (fun p => decide (now - p.2.lastActivity > 5 * 60 * 1000))

/-- Net effect of one cleanup tick: every stale entry is removed. -/
def cleanupStep (conns : List (String × SSEConnection)) (now : Nat) :
    List (String × SSEConnection) :=
  conns.filter (fun p => !(decide (now - p.2.lastActivity > 5 * 60 * 1000)))

/-- One observable event of the registry's timer-driven step model.  Write
outcomes (`writeOk`, `outcome`) encode the assumption that each
`response.write` either succeeds or throws. -/
inductive RegEvent : Type
  | add (connectionId : String) (authToken : AuthToken) (statusWriteOk : Bool) (t : Nat)
  | send (connectionId : String) (writeOk : Bool) (t : Nat)
  | close (connectionId : String) (t : Nat)
  | heartbeat (outcome : String → Bool) (t : Nat)
  | sweep (t : Nat)

/-- The wall-clock time of an event. -/
def eventTime : RegEvent → Nat
  | .add _ _ _ t => t
  | .send _ _ t => t
  | .close _ t => t
  | .heartbeat _ t => t
  | .sweep t => t

/-- Effect of one event on the connection map (sinks are irrelevant to the
staleness argument and omitted from this temporal model; `close` is the
channel's close/error event, wired by `addConnection` straight to
`removeConnection`). -/
def regStep (conns : List (String × SSEConnection)) : RegEvent →
    List (String × SSEConnection)
  | .add cid tok ok t =>
      let conns' := mapSet conns cid ({ authToken := tok, connectedAt := t, lastActivity := t })
      if ok then
        mapSet conns' cid ({ authToken := tok, connectedAt := t, lastActivity := t })
      else
        mapDelete conns' cid
  | .send cid ok t =>
      match mapGet conns cid with
      | none => conns
      | some c =>
          if ok then mapSet conns cid ({ c with lastActivity := t })
          else mapDelete conns cid
  | .close cid _ => mapDelete conns cid
  | .heartbeat outcome t => heartbeatStep conns outcome t
  | .sweep t => cleanupStep conns t

/-- Run a trace of events from the empty registry. -/
def runTrace (es : List RegEvent) : List (String × SSEConnection) :=
  es.foldl regStep []

/-- Is there a heartbeat event at time `t` in the trace? -/
def hbAt (es : List RegEvent) (t : Nat) : Bool :=
  es.any (fun e =>
    match e with
    | .heartbeat _ t' => decide (t' = t)
    | _ => false)

/-- The heartbeat tick times occurring in a trace. -/
def hbTimes (es : List RegEvent) : List Nat :=
  es.filterMap (fun e =>
    match e with
    | .heartbeat _ t => some t
    | _ => none)

/-- The latest heartbeat tick seen in a trace (0 if none). -/
def maxHbTime (es : List RegEvent) : Nat :=
  (hbTimes es).foldr max 0

/-- Is the event on its `setInterval` grid?  Heartbeat ticks sit on
positive multiples of 30000 ms, sweep ticks on positive multiples of
60000 ms; other events are unconstrained. -/
def onTimerGrid : RegEvent → Bool
  | .heartbeat _ t => decide (t % 30000 = 0) && decide (t ≠ 0)
  | .sweep t => decide (t % 60000 = 0) && decide (t ≠ 0)
  | _ => true

/-- A trace of the timer-driven step model:
events are in chronological order; the heartbeat timer has fired at every
positive multiple of 30000 ms up to the current time; heartbeat and sweep
events sit exactly on their 30-second and 60-second timer grids. -/
def ValidTrace (es : List RegEvent) : Prop :=
  es.Pairwise (fun a b => eventTime a ≤ eventTime b) ∧
  (∀ e ∈ es, ∀ k ≤ eventTime e / 30000, 1 ≤ k → hbAt es (30000 * k) = true) ∧
  (∀ e ∈ es, onTimerGrid e = true)

/-! ## Admin endpoints (`src/index.ts` and `src/transports/sse.ts`) -/

/-- `POST /admin/generate-token`: master-gated issuance; 403 leaves the
auth state untouched, a `parseDuration` error becomes a 400. -/
def adminGenerateToken (authToken : AuthToken) (st : AuthState) (type : TokenType)
    (expiresIn description : Option String) (tokenId signedToken : String)
    (now : Nat) : (Nat × Option String) × AuthState :=
  if authToken.type ≠ .master then ((403, none), st)
  else
    match generateToken st type expiresIn description tokenId signedToken now with
    | .ok (t, st') => ((200, some t), st')
    | .error _ => ((400, none), st)

/-- `POST /admin/revoke-token`: master-gated revocation. -/
def adminRevokeToken (authToken : AuthToken) (st : AuthState) (target : String) :
    (Nat × Option Bool) × AuthState :=
  if authToken.type ≠ .master then ((403, none), st)
  else
    let r := revokeToken st target
    ((200, some r.1), r.2)

/-- `GET /admin/tokens`: master-gated listing (read-only). -/
def adminListTokens (authToken : AuthToken) (st : AuthState) (now : Nat) :
    Nat × Option (List AuthToken) :=
  if authToken.type ≠ .master then (403, none)
  else (200, some (listTokens st now))

/-- The broadcast filter of `POST /mcp/sse/broadcast`. -/
inductive BroadcastFilter : Type
  | tokenTypes (types : List TokenType)
  | permissions (perms : List String)
  | all

/-- Does a connection pass the broadcast filter
(`broadcastToTokenTypes` / `broadcastToPermissions` / unfiltered)? -/
def passesFilter (filter : BroadcastFilter) (c : SSEConnection) : Bool :=
  match filter with
  | .tokenTypes types => types.contains c.authToken.type
  | .permissions perms =>
      perms.all (fun p => c.authToken.permissions.contains p)
  | .all => true

/-- Net effect of `SSEManager.broadcast` with a filter: matching entries get
a write (refresh on success, removal on throw); the count of successful
sends is returned. -/
def broadcastStep (conns : List (String × SSEConnection)) (filter : BroadcastFilter)
    (outcome : String → Bool) (now : Nat) : Nat × List (String × SSEConnection) :=
  ((conns.filter (fun p => passesFilter filter p.2 && outcome p.1)).length,
   conns.filterMap (fun p =>
     if passesFilter filter p.2 then
       if outcome p.1 then some (p.1, { p.2 with lastActivity := now }) else none
     else some p))

/-- `POST /mcp/sse/broadcast`: master-gated broadcast; 403 sends nothing and
leaves the registry untouched. -/
def sseBroadcastEndpoint (authToken : AuthToken) (conns : List (String × SSEConnection))
    (filter : BroadcastFilter) (outcome : String → Bool) (now : Nat) :
    (Nat × Option Nat) × List (String × SSEConnection) :=
  if authToken.type ≠ .master then ((403, none), conns)
  else
    let r := broadcastStep conns filter outcome now
    ((200, some r.1), r.2)

/-- Connection statistics (`SSEManager.getStats`). -/
structure SSEStats : Type where
  totalConnections : Nat
  masterConnections : Nat
  teamConnections : Nat
  readonlyConnections : Nat
deriving DecidableEq

/-- `SSEManager.getStats`, restricted to the counts (the oldest/newest
timestamps are not used by any claim). -/
def getStats (conns : List (String × SSEConnection)) : SSEStats :=
  { totalConnections := conns.length,
    masterConnections := (conns.filter (fun p => decide (p.2.authToken.type = .master))).length,
    teamConnections := (conns.filter (fun p => decide (p.2.authToken.type = .team))).length,
    readonlyConnections := (conns.filter (fun p => decide (p.2.authToken.type = .readonly))).length }

/-- `GET /mcp/sse/stats`: master-gated statistics (read-only). -/
def sseStatsEndpoint (authToken : AuthToken) (conns : List (String × SSEConnection)) :
    Nat × Option SSEStats :=
  if authToken.type ≠ .master then (403, none)
  else (200, some (getStats conns))

/-! ## Association-list and set lemmas -/

theorem mapGet_mapSet_self {κ α : Type} [DecidableEq κ] (m : List (κ × α)) (k : κ) (v : α) :
    mapGet (mapSet m k v) k = some v := by
  induction m with
  | nil => simp [mapSet, mapGet]
  | cons p rest ih =>
      obtain ⟨k', v'⟩ := p
      by_cases h : k' = k
      · simp [mapSet, mapGet, h]
      · simp [mapSet, mapGet, h, ih]

theorem mapGet_mapSet_ne {κ α : Type} [DecidableEq κ] (m : List (κ × α)) (k q : κ) (v : α)
    (h : q ≠ k) : mapGet (mapSet m k v) q = mapGet m q := by
  induction m with
  | nil => simp [mapSet, mapGet, Ne.symm h]
  | cons p rest ih =>
      obtain ⟨k', v'⟩ := p
      by_cases hk : k' = k
      · subst hk
        simp [mapSet, mapGet, Ne.symm h]
      · by_cases hq : k' = q <;> simp [mapSet, mapGet, hk, hq, ih, h]

theorem mapGet_mapDelete_self {κ α : Type} [DecidableEq κ] (m : List (κ × α)) (k : κ) :
    mapGet (mapDelete m k) k = none := by
  induction m with
  | nil => simp [mapDelete, mapGet]
  | cons p rest ih =>
      obtain ⟨k', v'⟩ := p
      by_cases h : k' = k <;> simp [mapDelete, mapGet, h, ih]

theorem mapGet_mapDelete_ne {κ α : Type} [DecidableEq κ] (m : List (κ × α)) (k q : κ)
    (h : q ≠ k) : mapGet (mapDelete m k) q = mapGet m q := by
  induction m with
  | nil => simp [mapDelete, mapGet]
  | cons p rest ih =>
      obtain ⟨k', v'⟩ := p
      by_cases hk : k' = k
      · subst hk
        simp [mapDelete, mapGet, Ne.symm h, ih]
      · by_cases hq : k' = q <;> simp [mapDelete, mapGet, hk, hq, ih, h]

theorem mapDelete_idem {κ α : Type} [DecidableEq κ] (m : List (κ × α)) (k : κ) :
    mapDelete (mapDelete m k) k = mapDelete m k := by
  induction m with
  | nil => simp [mapDelete]
  | cons p rest ih =>
      obtain ⟨k', v'⟩ := p
      by_cases h : k' = k <;> simp [mapDelete, h, ih]

theorem mapGet_eq_some_mem_keys {κ α : Type} [DecidableEq κ] (m : List (κ × α)) (k : κ)
    (v : α) (h : mapGet m k = some v) : k ∈ m.map Prod.fst := by
  induction m with
  | nil => simp [mapGet] at h
  | cons p rest ih =>
      obtain ⟨k', v'⟩ := p
      by_cases hk : k' = k
      · simp [hk]
      · simp [mapGet, hk] at h
        simp [ih h]

theorem mem_setAdd_self {κ : Type} [DecidableEq κ] (s : List κ) (k : κ) :
    k ∈ setAdd s k := by
  by_cases h : k ∈ s
  · rw [setAdd, if_pos h]
    exact h
  · rw [setAdd, if_neg h]
    simp

theorem mem_setAdd_of_mem {κ : Type} [DecidableEq κ] (s : List κ) (k q : κ) (h : q ∈ s) :
    q ∈ setAdd s k := by
  by_cases hk : k ∈ s <;> simp [setAdd, hk, h]

theorem not_mem_setAdd {κ : Type} [DecidableEq κ] (s : List κ) (k q : κ)
    (hq : q ∉ s) (hk : q ≠ k) : q ∉ setAdd s k := by
  by_cases h : k ∈ s <;> simp [setAdd, h, hq, hk]

theorem setAdd_idem {κ : Type} [DecidableEq κ] (s : List κ) (k : κ) :
    setAdd (setAdd s k) k = setAdd s k := by
  show (if k ∈ setAdd s k then setAdd s k else setAdd s k ++ [k]) = setAdd s k
  rw [if_pos (mem_setAdd_self s k)]

/-! ## Duration parser lemmas -/

theorem specDurationFormat_iff_match (s : String) :
    SpecDurationFormat s ↔ (parseDurationMatch s.data).isSome = true := by
  rcases List.eq_nil_or_concat s.data with h | ⟨l, a, h⟩
  · constructor
    · rintro ⟨ds, u, hs, -, -, -⟩
      rw [h] at hs
      exact absurd hs.symm (List.append_ne_nil_of_right_ne_nil ds (by simp))
    · intro hm
      rw [h] at hm
      simp [parseDurationMatch] at hm
  · rw [List.concat_eq_append] at h
    constructor
    · rintro ⟨ds, u, hs, hne, hdig, hu⟩
      rw [h] at hs
      have hds : ds = l := by
        have := congrArg List.dropLast hs
        simpa [List.dropLast_concat] using this.symm
      have hua : u = a := by
        have := congrArg List.getLast? hs
        simpa [List.getLast?_concat] using this.symm
      subst hds
      subst hua
      rw [h]
      simp only [parseDurationMatch, List.getLast?_concat, List.dropLast_concat]
      have hc : (decide (ds ≠ []) && ds.all isDigitChar &&
          (decide (u = 's') || decide (u = 'm') || decide (u = 'h') ||
            decide (u = 'd'))) = true := by
        simp only [Bool.and_eq_true, Bool.or_eq_true, decide_eq_true_eq,
          List.all_eq_true]
        exact ⟨⟨hne, hdig⟩, by tauto⟩
      rw [if_pos hc]
      rfl
    · intro hm
      rw [h] at hm
      simp only [parseDurationMatch, List.getLast?_concat, List.dropLast_concat] at hm
      by_cases hcond : (decide (l ≠ []) && l.all isDigitChar &&
          (decide (a = 's') || decide (a = 'm') || decide (a = 'h') ||
            decide (a = 'd'))) = true
      · simp only [Bool.and_eq_true, Bool.or_eq_true, decide_eq_true_eq,
          List.all_eq_true] at hcond
        exact ⟨l, a, h, hcond.1.1, hcond.1.2, by tauto⟩
      · rw [if_neg hcond] at hm
        simp at hm

theorem parseDuration_error_of_not_format (s : String) (h : ¬ SpecDurationFormat s) :
    parseDuration s = .error "Invalid duration format. Use format like: 30s, 5m, 2h, 7d" := by
  rw [specDurationFormat_iff_match] at h
  rw [parseDuration]
  rcases hm : parseDurationMatch s.data with - | p
  · rfl
  · rw [hm] at h
    simp at h

/-- Claim C7: the duration parser maps `30s`, `5m`, `2h`, `7d` to
30000, 300000, 7200000 and 604800000 milliseconds, and every input not of
the form `<integer><unit>` with unit in `s,m,h,d` fails with the
invalid-duration error, which `generateToken` reports synchronously to the
caller as a thrown error, leaving the store untouched. -/
theorem c7_parseDuration_spec :
    parseDuration "30s" = .ok 30000 ∧
    parseDuration "5m" = .ok 300000 ∧
    parseDuration "2h" = .ok 7200000 ∧
    parseDuration "7d" = .ok 604800000 ∧
    (∀ s : String, ¬ SpecDurationFormat s →
      parseDuration s =
        .error "Invalid duration format. Use format like: 30s, 5m, 2h, 7d") ∧
    (∀ (st : AuthState) (ty : TokenType) (desc : Option String)
        (tokenId signedToken : String) (now : Nat) (s : String),
      ¬ SpecDurationFormat s →
      generateToken st ty (some s) desc tokenId signedToken now =
        .error "Invalid duration format. Use format like: 30s, 5m, 2h, 7d") := by
  refine ⟨rfl, rfl, rfl, rfl,
    fun s h => parseDuration_error_of_not_format s h, ?_⟩
  intro st ty desc tokenId signedToken now s h
  rw [generateToken]
  simp only [parseDuration_error_of_not_format s h]

/-- Claim C7 witness: `5x` and `abc` are not in the duration format, and the
parser and `generateToken` reject them with the invalid-duration error. -/
theorem c7_parseDuration_spec_witness :
    (¬ SpecDurationFormat "5x") ∧ (¬ SpecDurationFormat "abc") ∧
    parseDuration "5x" =
      .error "Invalid duration format. Use format like: 30s, 5m, 2h, 7d" ∧
    parseDuration "abc" =
      .error "Invalid duration format. Use format like: 30s, 5m, 2h, 7d" ∧
    generateToken ⟨[], []⟩ .team (some "5x") none "id0" "tok0" 0 =
      .error "Invalid duration format. Use format like: 30s, 5m, 2h, 7d" := by
  have h5 : ¬ SpecDurationFormat "5x" := by
    rw [specDurationFormat_iff_match]; decide
  have habc : ¬ SpecDurationFormat "abc" := by
    rw [specDurationFormat_iff_match]; decide
  exact ⟨h5, habc,
    c7_parseDuration_spec.2.2.2.2.1 "5x" h5,
    c7_parseDuration_spec.2.2.2.2.1 "abc" habc,
    c7_parseDuration_spec.2.2.2.2.2 ⟨[], []⟩ .team none "id0" "tok0" 0 "5x" h5⟩

/-! ## Auth Manager theorems -/

/-- Case analysis of `verifyToken`, shared by several results below. -/
theorem verifyToken_cases
    (jwtVerify : String → Option JWTPayload) (st : AuthState) (t : String) (now : Nat) :
    (t ∈ st.revokedTokens → verifyToken jwtVerify st t now = (none, st)) ∧
    (t ∉ st.revokedTokens → ∀ a, mapGet st.tokens t = some a →
      (∀ e, a.expiresAt = some e → e < now →
        verifyToken jwtVerify st t now =
          (none, { st with tokens := mapDelete st.tokens t })) ∧
      ((a.expiresAt = none ∨ ∃ e, a.expiresAt = some e ∧ ¬ e < now) →
        verifyToken jwtVerify st t now =
          (some ({ a with lastUsed := some now }),
           { st with tokens := mapSet st.tokens t ({ a with lastUsed := some now }) }))) ∧
    (t ∉ st.revokedTokens → mapGet st.tokens t = none →
      verifyToken jwtVerify st t now =
        ((jwtVerify t).map (fun payload => fromJWTPayload payload now), st)) := by
  refine ⟨?_, ?_, ?_⟩
  · intro hrev
    simp [verifyToken, hrev]
  · intro hrev a ha
    refine ⟨?_, ?_⟩
    · intro e he hlt
      simp [verifyToken, hrev, ha, he, hlt]
    · rintro (he | ⟨e, he, hnlt⟩)
      · simp [verifyToken, hrev, ha, he]
      · simp [verifyToken, hrev, ha, he, hnlt]
  · intro hrev hnone
    rcases hj : jwtVerify t with - | payload <;>
      simp [verifyToken, hrev, hnone, hj]

/-- Claim C1: verification is total — it returns an explicit invalid result
(`none`) or a record — and its checks short-circuit in order: (a) a revoked
token is invalid with the state untouched, even if still validly signed;
(b) a token present in the direct store is purged-and-rejected when
expired, and otherwise returned with `lastUsed` refreshed in the store;
(c) otherwise the result is exactly the signature-verification outcome: a
transient record synthesized from the embedded claims on success (the
store left untouched), invalid on signature failure or malformed token. -/
theorem c1_verifyToken_spec :
    ∀ (jwtVerify : String → Option JWTPayload) (st : AuthState) (t : String) (now : Nat),
      (t ∈ st.revokedTokens → verifyToken jwtVerify st t now = (none, st)) ∧
      (t ∉ st.revokedTokens → ∀ a, mapGet st.tokens t = some a →
        (∀ e, a.expiresAt = some e → e < now →
          verifyToken jwtVerify st t now =
            (none, { st with tokens := mapDelete st.tokens t })) ∧
        ((a.expiresAt = none ∨ ∃ e, a.expiresAt = some e ∧ ¬ e < now) →
          verifyToken jwtVerify st t now =
            (some ({ a with lastUsed := some now }),
             { st with tokens := mapSet st.tokens t ({ a with lastUsed := some now }) }))) ∧
      (t ∉ st.revokedTokens → mapGet st.tokens t = none →
        verifyToken jwtVerify st t now =
          ((jwtVerify t).map (fun payload => fromJWTPayload payload now), st)) :=
  fun jwtVerify st t now => verifyToken_cases jwtVerify st t now

/-- Claim C1 witness: a concrete revoked token, a concrete live stored
token, and a concrete absent token exercise the three branches. -/
theorem c1_verifyToken_spec_witness :
    ("r" ∈ (AuthState.mk [] ["r"]).revokedTokens ∧
      verifyToken (fun _ => none) ⟨[], ["r"]⟩ "r" 0 = (none, ⟨[], ["r"]⟩)) ∧
    (("a" ∉ (AuthState.mk [("a", staticRecord 0 3)] []).revokedTokens ∧
        mapGet [("a", staticRecord 0 3)] "a" = some (staticRecord 0 3)) ∧
      verifyToken (fun _ => none) ⟨[("a", staticRecord 0 3)], []⟩ "a" 7 =
        (some ({ staticRecord 0 3 with lastUsed := some 7 }),
         ⟨mapSet [("a", staticRecord 0 3)] "a"
            ({ staticRecord 0 3 with lastUsed := some 7 }), []⟩)) ∧
    (("z" ∉ (AuthState.mk [] []).revokedTokens ∧ mapGet ([] : List (String × AuthToken)) "z" = none) ∧
      verifyToken (fun _ => none) ⟨[], []⟩ "z" 0 = (none, ⟨[], []⟩)) := by
  refine ⟨⟨by decide, ?_⟩, ⟨⟨by decide, by decide⟩, ?_⟩, ⟨⟨by decide, by decide⟩, ?_⟩⟩
  · exact (c1_verifyToken_spec (fun _ => none) ⟨[], ["r"]⟩ "r" 0).1 (by decide)
  · exact ((c1_verifyToken_spec (fun _ => none) ⟨[("a", staticRecord 0 3)], []⟩ "a" 7).2.1
      (by decide) (staticRecord 0 3) (by decide)).2 (Or.inl rfl)
  · exact (c1_verifyToken_spec (fun _ => none) ⟨[], []⟩ "z" 0).2.2 (by decide) rfl

/-- Claim C5: `revokeToken` adds the token to the revocation set
unconditionally and returns exactly whether the direct store deleted
something; revoking twice produces the same state as revoking once, and
after a revocation every `verifyToken` of that token is invalid. -/
theorem c5_revoke_spec :
    ∀ (st : AuthState) (t : String) (jwtVerify : String → Option JWTPayload) (now : Nat),
      (revokeToken st t).1 = (mapGet st.tokens t).isSome ∧
      t ∈ (revokeToken st t).2.revokedTokens ∧
      (revokeToken (revokeToken st t).2 t).2 = (revokeToken st t).2 ∧
      (verifyToken jwtVerify (revokeToken st t).2 t now).1 = none := by
  intro st t jwtV now
  refine ⟨rfl, mem_setAdd_self _ _, ?_, ?_⟩
  · simp [revokeToken, mapDelete_idem, setAdd_idem]
  · simp [verifyToken, revokeToken, mem_setAdd_self]

/-! ## Dispatcher theorems -/

theorem toolPermissions_keys_registered :
    ∀ k ∈ TOOL_PERMISSIONS.map Prod.fst, k ∈ allHandlerNames := by
  decide

/-- Claim C2: the `tools/call` branch fails with the
insufficient-permissions error whenever the caller lacks any capability
required for the named tool, and fails with the unknown-tool error for
every name without a registered handler, regardless of the caller's
permissions (every name carrying a permission entry has a handler, so a
handler-less name requires no capability at all). -/
theorem c2_toolsCall_spec :
    ∀ (authToken : AuthToken) (name : String),
      (hasPermission authToken (requiredPermissionsFor name) = false →
        toolsCall authToken name = .insufficientPermissions) ∧
      (name ∉ allHandlerNames → toolsCall authToken name = .unknownTool) := by
  intro tok name
  constructor
  · intro h
    simp [toolsCall, h]
  · intro h
    have hreq : requiredPermissionsFor name = [] := by
      rw [requiredPermissionsFor]
      rcases hg : mapGet TOOL_PERMISSIONS name with - | v
      · rfl
      · exact absurd
          (toolPermissions_keys_registered name (mapGet_eq_some_mem_keys _ _ _ hg)) h
    have hperm : hasPermission tok (requiredPermissionsFor name) = true := by
      rw [hreq]
      rfl
    simp [toolsCall, hperm, h]

/-- Claim C2 witness: a readonly caller is denied `create_project` with the
insufficient-permissions error, and gets the unknown-tool error on an
unregistered name. -/
theorem c2_toolsCall_spec_witness :
    (hasPermission ⟨"r0", .readonly, PERMISSION_SETS .readonly, none, 0, none, none⟩
        (requiredPermissionsFor "create_project") = false ∧
      toolsCall ⟨"r0", .readonly, PERMISSION_SETS .readonly, none, 0, none, none⟩
        "create_project" = .insufficientPermissions) ∧
    ("no_such_tool" ∉ allHandlerNames ∧
      toolsCall ⟨"r0", .readonly, PERMISSION_SETS .readonly, none, 0, none, none⟩
        "no_such_tool" = .unknownTool) := by
  refine ⟨⟨by decide, ?_⟩, ⟨by decide, ?_⟩⟩
  · exact (c2_toolsCall_spec
      ⟨"r0", .readonly, PERMISSION_SETS .readonly, none, 0, none, none⟩
      "create_project").1 (by decide)
  · exact (c2_toolsCall_spec
      ⟨"r0", .readonly, PERMISSION_SETS .readonly, none, 0, none, none⟩
      "no_such_tool").2 (by decide)

/-- Claim C8: issuing a token and immediately verifying the returned string
yields a record whose kind equals the issued kind, whose permissions are
that kind's fixed permission set, and whose `lastUsed` field is set —
both with and without a (well-formed) ttl. -/
theorem c8_roundtrip :
    ∀ (st : AuthState) (ty : TokenType) (desc : Option String)
      (tokenId tok : String) (now : Nat) (jwtVerify : String → Option JWTPayload),
      tok ∉ st.revokedTokens →
      (∀ ttl d, parseDuration ttl = .ok d →
        ∃ st2, generateToken st ty (some ttl) desc tokenId tok now = .ok (tok, st2) ∧
          (verifyToken jwtVerify st2 tok now).1 =
            some { id := tokenId, type := ty, permissions := PERMISSION_SETS ty,
                   expiresAt := some (now + d), createdAt := now,
                   lastUsed := some now, description := descField desc }) ∧
      (∃ st2, generateToken st ty none desc tokenId tok now = .ok (tok, st2) ∧
        (verifyToken jwtVerify st2 tok now).1 =
          some { id := tokenId, type := ty, permissions := PERMISSION_SETS ty,
                 expiresAt := none, createdAt := now,
                 lastUsed := some now, description := descField desc }) := by
  intro st ty desc tokenId tok now jwtV hrev
  constructor
  · intro ttl d hp
    refine ⟨{ st with tokens := mapSet st.tokens tok (issuedRecord ty tokenId (some (now + d)) now desc) }, ?_, ?_⟩
    · simp [generateToken, hp, issuedRecord]
    · simp [verifyToken, hrev, mapGet_mapSet_self, issuedRecord,
        (Nat.not_lt.mpr (Nat.le_add_right now d) : ¬ now + d < now)]
  · refine ⟨{ st with tokens := mapSet st.tokens tok (issuedRecord ty tokenId none now desc) }, ?_, ?_⟩
    · simp [generateToken, issuedRecord]
    · simp [verifyToken, hrev, mapGet_mapSet_self, issuedRecord]

/-- Claim C8 witness: round-trip of a concrete readonly token with ttl
`30s` at time 5. -/
theorem c8_roundtrip_witness :
    ("tok1" ∉ (AuthState.mk [] []).revokedTokens) ∧ parseDuration "30s" = .ok 30000 ∧
    (∃ st2, generateToken ⟨[], []⟩ .readonly (some "30s") none "id1" "tok1" 5 =
        .ok ("tok1", st2) ∧
      (verifyToken (fun _ => none) st2 "tok1" 5).1 =
        some { id := "id1", type := .readonly,
               permissions := PERMISSION_SETS .readonly,
               expiresAt := some (5 + 30000), createdAt := 5,
               lastUsed := some 5, description := descField none }) := by
  refine ⟨by decide, rfl, ?_⟩
  exact ((c8_roundtrip ⟨[], []⟩ .readonly none "id1" "tok1" 5 (fun _ => none)
    (by decide)).1) "30s" 30000 rfl

/-! ## Admin gating theorems -/

/-- Claim C6: the administrative operations — token issue/revoke/list, push
broadcast and push stats — are gated on the master kind, the only kind
whose fixed permission set carries the administrative capabilities; a
valid non-master credential receives a 403 with the underlying operation
not performed, while a master credential has the operation executed. -/
theorem c6_admin_master_only :
    ∀ (tok : AuthToken) (st : AuthState) (conns : List (String × SSEConnection))
      (ty : TokenType) (expiresIn description : Option String)
      (tokenId signedToken target : String) (now : Nat)
      (filter : BroadcastFilter) (outcome : String → Bool),
      (tok.permissions = PERMISSION_SETS tok.type →
        (tok.type = .master ↔
          "admin:read" ∈ tok.permissions ∧ "admin:write" ∈ tok.permissions)) ∧
      (tok.type ≠ .master →
        adminGenerateToken tok st ty expiresIn description tokenId signedToken now =
          ((403, none), st) ∧
        adminRevokeToken tok st target = ((403, none), st) ∧
        adminListTokens tok st now = (403, none) ∧
        sseBroadcastEndpoint tok conns filter outcome now = ((403, none), conns) ∧
        sseStatsEndpoint tok conns = (403, none)) ∧
      (tok.type = .master →
        (∀ t st', generateToken st ty expiresIn description tokenId signedToken now =
            .ok (t, st') →
          adminGenerateToken tok st ty expiresIn description tokenId signedToken now =
            ((200, some t), st')) ∧
        adminRevokeToken tok st target =
          ((200, some (revokeToken st target).1), (revokeToken st target).2) ∧
        adminListTokens tok st now = (200, some (listTokens st now)) ∧
        sseBroadcastEndpoint tok conns filter outcome now =
          ((200, some (broadcastStep conns filter outcome now).1),
           (broadcastStep conns filter outcome now).2) ∧
        sseStatsEndpoint tok conns = (200, some (getStats conns))) := by
  intro tok st conns ty ei d tid stok target now filt outc
  refine ⟨?_, ?_, ?_⟩
  · intro hp
    constructor
    · intro hm
      rw [hp, hm]
      exact ⟨by decide, by decide⟩
    · rintro ⟨h1, -⟩
      rcases hty : tok.type with - | - | -
      · rfl
      · rw [hp, hty] at h1
        exact absurd h1 (by decide)
      · rw [hp, hty] at h1
        exact absurd h1 (by decide)
  · intro hne
    refine ⟨?_, ?_, ?_, ?_, ?_⟩ <;>
      simp [adminGenerateToken, adminRevokeToken, adminListTokens,
        sseBroadcastEndpoint, sseStatsEndpoint, hne]
  · intro hm
    refine ⟨?_, ?_, ?_, ?_, ?_⟩
    · intro t st' hg
      simp [adminGenerateToken, hm, hg]
    all_goals
      simp [adminRevokeToken, adminListTokens, sseBroadcastEndpoint,
        sseStatsEndpoint, hm]

/-- Claim C6 witness: a team credential is rejected with 403 on revoke and
stats, and a master credential passes the capability biconditional and has
revoke executed. -/
theorem c6_admin_master_only_witness :
    ((AuthToken.mk "t0" .team (PERMISSION_SETS .team) none 0 none none).type ≠ .master ∧
      adminRevokeToken ⟨"t0", .team, PERMISSION_SETS .team, none, 0, none, none⟩
        ⟨[], []⟩ "x" = ((403, none), ⟨[], []⟩) ∧
      sseStatsEndpoint ⟨"t0", .team, PERMISSION_SETS .team, none, 0, none, none⟩ [] =
        (403, none)) ∧
    ((AuthToken.mk "m0" .master (PERMISSION_SETS .master) none 0 none none).permissions =
        PERMISSION_SETS (AuthToken.mk "m0" .master (PERMISSION_SETS .master) none 0 none none).type ∧
      ((AuthToken.mk "m0" .master (PERMISSION_SETS .master) none 0 none none).type = .master ↔
        "admin:read" ∈ (AuthToken.mk "m0" .master (PERMISSION_SETS .master) none 0 none none).permissions ∧
        "admin:write" ∈ (AuthToken.mk "m0" .master (PERMISSION_SETS .master) none 0 none none).permissions) ∧
      adminRevokeToken ⟨"m0", .master, PERMISSION_SETS .master, none, 0, none, none⟩
        ⟨[], []⟩ "x" =
        ((200, some (revokeToken (AuthState.mk [] []) "x").1),
         (revokeToken (AuthState.mk [] []) "x").2)) := by
  refine ⟨⟨by decide, ?_, ?_⟩, ⟨rfl, ?_, ?_⟩⟩
  · exact ((c6_admin_master_only ⟨"t0", .team, PERMISSION_SETS .team, none, 0, none, none⟩
      ⟨[], []⟩ [] .readonly none none "i" "s" "x" 0 .all (fun _ => true)).2.1
      (by decide)).2.1
  · exact ((c6_admin_master_only ⟨"t0", .team, PERMISSION_SETS .team, none, 0, none, none⟩
      ⟨[], []⟩ [] .readonly none none "i" "s" "x" 0 .all (fun _ => true)).2.1
      (by decide)).2.2.2.2
  · exact (c6_admin_master_only ⟨"m0", .master, PERMISSION_SETS .master, none, 0, none, none⟩
      ⟨[], []⟩ [] .readonly none none "i" "s" "x" 0 .all (fun _ => true)).1 rfl
  · exact ((c6_admin_master_only ⟨"m0", .master, PERMISSION_SETS .master, none, 0, none, none⟩
      ⟨[], []⟩ [] .readonly none none "i" "s" "x" 0 .all (fun _ => true)).2.2
      rfl).2.1

/-! ## Static-token theorems -/

theorem mapGet_filter_some {κ α : Type} [DecidableEq κ] (m : List (κ × α)) (k : κ) (v : α)
    (p : κ × α → Bool) (h : mapGet m k = some v) (hp : p (k, v) = true) :
    mapGet (m.filter p) k = some v := by
  induction m with
  | nil => simp [mapGet] at h
  | cons q rest ih =>
      obtain ⟨k', v'⟩ := q
      by_cases hk : k' = k
      · subst hk
        simp [mapGet] at h
        subst h
        simp [List.filter_cons, hp, mapGet]
      · simp [mapGet, hk] at h
        by_cases hq : p (k', v') = true
        · simp [List.filter_cons, hq, mapGet, hk, ih h]
        · simp [List.filter_cons, hq, ih h]

theorem addStatics_not_mem (toks : List String) (acc : List (String × AuthToken))
    (n now : Nat) (t : String) (h : t ∉ toks) :
    mapGet (addStatics acc n now toks) t = mapGet acc t := by
  induction toks generalizing acc n with
  | nil => rfl
  | cons tk rest ih =>
      have h1 : t ≠ tk := fun hh => h (by simp [hh])
      have h2 : t ∉ rest := fun hh => h (by simp [hh])
      show mapGet (addStatics (mapSet acc tk (staticRecord n now)) (n + 1) now rest) t = _
      rw [ih _ _ h2, mapGet_mapSet_ne _ _ _ _ h1]

theorem addStatics_get (toks : List String) (acc : List (String × AuthToken))
    (n now i : Nat) (t : String) (hnd : toks.Nodup) (hi : toks.get? i = some t) :
    mapGet (addStatics acc n now toks) t = some (staticRecord (n + i) now) := by
  induction toks generalizing acc n i with
  | nil => simp at hi
  | cons tk rest ih =>
      rcases i with - | j
      · have htk : tk = t := by simpa using hi
        subst htk
        have hmem : tk ∉ rest := (List.nodup_cons.mp hnd).1
        show mapGet (addStatics (mapSet acc tk (staticRecord n now)) (n + 1) now rest) tk = _
        rw [addStatics_not_mem _ _ _ _ _ hmem, mapGet_mapSet_self, Nat.add_zero]
      · simp only [List.get?] at hi
        have hnd' := (List.nodup_cons.mp hnd).2
        show mapGet (addStatics (mapSet acc tk (staticRecord n now)) (n + 1) now rest) t = _
        rw [ih _ _ _ hnd' hi]
        have harith : n + 1 + j = n + (j + 1) := by omega
        rw [harith]

theorem generateToken_ok_state (st : AuthState) (ty : TokenType)
    (ei desc : Option String) (tid stok : String) (now : Nat) (s : String) (st' : AuthState)
    (h : generateToken st ty ei desc tid stok now = .ok (s, st')) :
    s = stok ∧ ∃ r, st' = { st with tokens := mapSet st.tokens stok r } := by
  rcases ei with - | ttl
  · simp [generateToken] at h
    exact ⟨h.1.symm, _, h.2.symm⟩
  · rcases hp : parseDuration ttl with e | dur
    · simp [generateToken, hp] at h
    · simp [generateToken, hp] at h
      exact ⟨h.1.symm, _, h.2.symm⟩

theorem verifyToken_preserves_static (jv : String → Option JWTPayload) (st : AuthState)
    (tk : String) (now : Nat) (t : String) (i n0 : Nat)
    (h : storedAsStaticMaster st t i n0) :
    storedAsStaticMaster (verifyToken jv st tk now).2 t i n0 := by
  obtain ⟨hnr, lu, hget⟩ := h
  by_cases hr : tk ∈ st.revokedTokens
  · rw [(verifyToken_cases jv st tk now).1 hr]
    exact ⟨hnr, lu, hget⟩
  · rcases hg : mapGet st.tokens tk with - | a
    · rw [(verifyToken_cases jv st tk now).2.2 hr hg]
      exact ⟨hnr, lu, hget⟩
    · rcases he : a.expiresAt with - | e
      · -- no stored expiry: `lastUsed` refreshed in place
        rw [((verifyToken_cases jv st tk now).2.1 hr a hg).2 (Or.inl he)]
        by_cases htk : tk = t
        · subst htk
          rw [hget] at hg
          injection hg with hg'
          subst hg'
          exact ⟨hnr, some now, by rw [mapGet_mapSet_self]⟩
        · refine ⟨hnr, lu, ?_⟩
          rw [mapGet_mapSet_ne _ _ _ _ (fun hh => htk hh.symm)]
          exact hget
      · -- stored expiry present: the static record has none, so tk ≠ t
        have htk : tk ≠ t := by
          intro hh
          subst hh
          rw [hget] at hg
          injection hg with hg'
          subst hg'
          simp [staticRecord] at he
        by_cases hlt : e < now
        · rw [((verifyToken_cases jv st tk now).2.1 hr a hg).1 e he hlt]
          refine ⟨hnr, lu, ?_⟩
          rw [mapGet_mapDelete_ne _ _ _ (fun hh => htk hh.symm)]
          exact hget
        · rw [((verifyToken_cases jv st tk now).2.1 hr a hg).2 (Or.inr ⟨e, he, hlt⟩)]
          refine ⟨hnr, lu, ?_⟩
          rw [mapGet_mapSet_ne _ _ _ _ (fun hh => htk hh.symm)]
          exact hget

theorem applyAuthOp_preserves_static (st : AuthState) (op : AuthOp) (t : String)
    (i n0 : Nat) (h : storedAsStaticMaster st t i n0)
    (hnorev : ¬ opRevokes op t) (hnosign : ¬ opSignsAs op t) :
    storedAsStaticMaster (applyAuthOp st op) t i n0 := by
  obtain ⟨hnr, lu, hget⟩ := h
  rcases op with ⟨ty, ei, desc, tid, stok, now⟩ | ⟨jv, tk, now⟩ | tk | now
  · have hne : stok ≠ t := hnosign
    rcases hg : generateToken st ty ei desc tid stok now with e | r
    · simp only [applyAuthOp, hg]
      exact ⟨hnr, lu, hget⟩
    · obtain ⟨s, st'⟩ := r
      obtain ⟨-, r, hst'⟩ := generateToken_ok_state _ _ _ _ _ _ _ _ _ hg
      simp only [applyAuthOp, hg, hst']
      refine ⟨hnr, lu, ?_⟩
      rw [mapGet_mapSet_ne _ _ _ _ (fun hh => hne hh.symm)]
      exact hget
  · exact verifyToken_preserves_static jv st tk now t i n0 ⟨hnr, lu, hget⟩
  · have hne : t ≠ tk := fun hh => hnorev hh.symm
    refine ⟨not_mem_setAdd _ _ _ hnr hne, lu, ?_⟩
    show mapGet (mapDelete st.tokens tk) t = _
    rw [mapGet_mapDelete_ne _ _ _ hne]
    exact hget
  · refine ⟨hnr, lu, ?_⟩
    show mapGet (st.tokens.filter _) t = _
    exact mapGet_filter_some _ _ _ _ hget (by simp [staticRecord])

theorem applyAuthOps_preserves_static (ops : List AuthOp) (st : AuthState) (t : String)
    (i n0 : Nat) (h : storedAsStaticMaster st t i n0)
    (hops : ∀ op ∈ ops, ¬ opRevokes op t ∧ ¬ opSignsAs op t) :
    storedAsStaticMaster (applyAuthOps st ops) t i n0 := by
  induction ops generalizing st with
  | nil => exact h
  | cons op rest ih =>
      have h1 := hops op (by simp)
      show storedAsStaticMaster (applyAuthOps (applyAuthOp st op) rest) t i n0
      exact ih (applyAuthOp st op)
        (applyAuthOp_preserves_static st op t i n0 h h1.1 h1.2)
        (fun o ho => hops o (List.mem_cons_of_mem _ ho))

theorem verifyToken_of_static (jv : String → Option JWTPayload) (st : AuthState)
    (t : String) (i n0 now2 : Nat) (h : storedAsStaticMaster st t i n0) :
    (verifyToken jv st t now2).1 =
      some ({ staticRecord i n0 with lastUsed := some now2 }) := by
  obtain ⟨hnr, lu, hget⟩ := h
  simp [verifyToken, hnr, hget, staticRecord]

/-- Claim C10: every statically provisioned initial token is recorded as a
master record with the full master permission set, a description, no
expiry, and id `static-<index>`; and across any sequence of auth
operations that neither revokes it nor signs a colliding token string —
including expiry sweeps, which never purge it — `verifyToken` keeps
returning a master record carrying the administrative capabilities. -/
theorem c10_static_tokens :
    ∀ (toks : List String) (now : Nat) (i : Nat) (t : String),
      toks.Nodup → toks.get? i = some t →
      mapGet (initAuthState toks now).tokens t = some (staticRecord i now) ∧
      (staticRecord i now).type = .master ∧
      (staticRecord i now).permissions = PERMISSION_SETS .master ∧
      (staticRecord i now).expiresAt = none ∧
      (staticRecord i now).id = "static-" ++ toString i ∧
      (staticRecord i now).description =
        some ("Initial static token " ++ toString (i + 1)) ∧
      ∀ (ops : List AuthOp), (∀ op ∈ ops, ¬ opRevokes op t ∧ ¬ opSignsAs op t) →
        ∀ (jwtVerify : String → Option JWTPayload) (now2 : Nat),
          (verifyToken jwtVerify (applyAuthOps (initAuthState toks now) ops) t now2).1 =
            some ({ staticRecord i now with lastUsed := some now2 }) ∧
          ({ staticRecord i now with lastUsed := some now2 }).type = .master ∧
          "admin:read" ∈ ({ staticRecord i now with lastUsed := some now2 }).permissions ∧
          "admin:write" ∈ ({ staticRecord i now with lastUsed := some now2 }).permissions := by
  intro toks now i t hnd hi
  have hinit : mapGet (initAuthState toks now).tokens t = some (staticRecord i now) := by
    show mapGet (addStatics [] 0 now toks) t = _
    rw [addStatics_get toks [] 0 now i t hnd hi]
    rw [Nat.zero_add]
  have hbase : storedAsStaticMaster (initAuthState toks now) t i now := by
    exact ⟨by simp [initAuthState], none, hinit⟩
  refine ⟨hinit, rfl, rfl, rfl, rfl, rfl, ?_⟩
  intro ops hops jv now2
  have hst := applyAuthOps_preserves_static ops (initAuthState toks now) t i now hbase hops
  refine ⟨verifyToken_of_static jv _ t i now now2 hst, rfl, ?_, ?_⟩
  · show "admin:read" ∈ PERMISSION_SETS TokenType.master
    decide
  · show "admin:write" ∈ PERMISSION_SETS TokenType.master
    decide

/-- Claim C10 witness: two static tokens provisioned at time 0; after an
hourly sweep at time 5, the second still verifies as the `static-1` master
record. -/
theorem c10_static_tokens_witness :
    ((["s0", "s1"] : List String).Nodup ∧ (["s0", "s1"] : List String).get? 1 = some "s1") ∧
    (∀ op ∈ ([AuthOp.sweep 5] : List AuthOp), ¬ opRevokes op "s1" ∧ ¬ opSignsAs op "s1") ∧
    mapGet (initAuthState ["s0", "s1"] 0).tokens "s1" = some (staticRecord 1 0) ∧
    (verifyToken (fun _ => none)
        (applyAuthOps (initAuthState ["s0", "s1"] 0) [AuthOp.sweep 5]) "s1" 9).1 =
      some ({ staticRecord 1 0 with lastUsed := some 9 }) := by
  have hnd : (["s0", "s1"] : List String).Nodup := by decide
  have hops : ∀ op ∈ ([AuthOp.sweep 5] : List AuthOp),
      ¬ opRevokes op "s1" ∧ ¬ opSignsAs op "s1" := by
    intro op hop
    simp at hop
    subst hop
    exact ⟨fun h => h, fun h => h⟩
  refine ⟨⟨hnd, rfl⟩, hops, (c10_static_tokens ["s0", "s1"] 0 1 "s1" hnd rfl).1, ?_⟩
  exact ((c10_static_tokens ["s0", "s1"] 0 1 "s1" hnd rfl).2.2.2.2.2.2
    [AuthOp.sweep 5] hops (fun _ => none) 9).1

/-! ## Connection registry: the unregister contract (claim C4) -/

/-- Claim C4, failing input: `removeConnection`'s own comment says
"Close the response if it's still open", but the code tests
`!response.headersSent` — and the SSE transport calls `writeHead` before
registering, so every registered sink has `headersSent = true`.  On a
registry holding one connection whose sink is open (`headersSent = true`,
`closed = false`), `removeConnection` deletes the entry but never calls
`end()`: the sink stays open, contradicting "closes the sink if not
already closed".  The other parts of the contract hold: a second removal
is a no-op (idempotence), and removal of an absent id leaves the state
unchanged. -/
theorem c4_removeConnection_skips_end :
    (removeConnection
        ⟨[("c1", ⟨⟨"m", .master, [], none, 0, none, none⟩, 0, 0⟩)],
         [("c1", ⟨true, false⟩)]⟩ "c1").connections = [] ∧
    mapGet (removeConnection
        ⟨[("c1", ⟨⟨"m", .master, [], none, 0, none, none⟩, 0, 0⟩)],
         [("c1", ⟨true, false⟩)]⟩ "c1").sinks "c1" = some ⟨true, false⟩ ∧
    removeConnection (removeConnection
        ⟨[("c1", ⟨⟨"m", .master, [], none, 0, none, none⟩, 0, 0⟩)],
         [("c1", ⟨true, false⟩)]⟩ "c1") "c1" =
      removeConnection
        ⟨[("c1", ⟨⟨"m", .master, [], none, 0, none, none⟩, 0, 0⟩)],
         [("c1", ⟨true, false⟩)]⟩ "c1" ∧
    removeConnection (⟨[], [("c1", ⟨true, false⟩)]⟩ : RegState) "c1" =
      ⟨[], [("c1", ⟨true, false⟩)]⟩ := by
  refine ⟨rfl, rfl, rfl, rfl⟩

/-! ## Streaming transport theorems (claim C3) -/

theorem filterMap_processLine_length {μ ρ : Type} (parse : List Char → Option μ)
    (handle : μ → Except String ρ) (ls : List (List Char)) :
    (ls.filterMap (processLine parse handle)).length =
      (ls.filter (fun l => decide (jsTrim l ≠ []))).length := by
  induction ls with
  | nil => rfl
  | cons l rest ih =>
      by_cases h : jsTrim l = []
      · simp [List.filterMap_cons, List.filter_cons, processLine, h, ih]
      · have hsome : (processLine parse handle l).isSome = true := by
          rw [processLine]
          simp only [if_neg h]
          rcases hm : parse (jsTrim l) with - | m
          · rfl
          · rcases hh : handle m with e | r <;> simp [hm, hh]
        rcases hp : processLine parse handle l with - | o
        · rw [hp] at hsome
          simp at hsome
        · simp [List.filterMap_cons, List.filter_cons, hp, h, ih]

/-- Claim C3, counterexample to strict cross-chunk ordering: the `data`
callback is `async` and the emitter does not await it, so an invocation
suspended at `await handleMCPMessage` does not block a later `data` event.
With chunks `"A\nB\n"` then `"C\n"`, if the handler call for line `A`
suspends (real collaborator I/O) until after the second chunk arrives, the
event-loop schedule below answers `C` before `B`: the response channel
carries `A, C, B`, not the input order `A, B, C` that sequential
processing produces. -/
theorem c3_counterexample_cross_chunk_reorder :
    Relation.ReflTransGen
      (StreamStep (fun s => (some s : Option (List Char)))
        (fun s => (Except.ok s : Except String (List Char))))
      ⟨[], [['A', '\n', 'B', '\n'], ['C', '\n']], [], []⟩
      ⟨[], [], [[], []],
       [OutLine.response ['A'], OutLine.response ['C'], OutLine.response ['B']]⟩ ∧
    processChunksSeq (fun s => (some s : Option (List Char)))
        (fun s => (Except.ok s : Except String (List Char)))
        [['A', '\n', 'B', '\n'], ['C', '\n']] [] =
      [OutLine.response ['A'], OutLine.response ['B'], OutLine.response ['C']] ∧
    ([OutLine.response ['A'], OutLine.response ['C'], OutLine.response ['B']] :
        List (OutLine (List Char))) ≠
      [OutLine.response ['A'], OutLine.response ['B'], OutLine.response ['C']] := by
  refine ⟨?_, by decide, by decide⟩
  have s1 : StreamStep (fun s => (some s : Option (List Char)))
      (fun s => (Except.ok s : Except String (List Char)))
      ⟨[], [['A', '\n', 'B', '\n'], ['C', '\n']], [], []⟩
      ⟨[], [['C', '\n']], [[['A'], ['B']]], []⟩ :=
    StreamStep.arrive [] ['A', '\n', 'B', '\n'] [['C', '\n']] [] [] [['A'], ['B']] []
      (by decide)
  have s2 : StreamStep (fun s => (some s : Option (List Char)))
      (fun s => (Except.ok s : Except String (List Char)))
      ⟨[], [['C', '\n']], [[['A'], ['B']]], []⟩
      ⟨[], [['C', '\n']], [[['B']]], [OutLine.response ['A']]⟩ :=
    StreamStep.work [] [['C', '\n']] [] ['A'] [['B']] [] []
  have s3 : StreamStep (fun s => (some s : Option (List Char)))
      (fun s => (Except.ok s : Except String (List Char)))
      ⟨[], [['C', '\n']], [[['B']]], [OutLine.response ['A']]⟩
      ⟨[], [], [[['B']], [['C']]], [OutLine.response ['A']]⟩ :=
    StreamStep.arrive [] ['C', '\n'] [] [[['B']]] [OutLine.response ['A']] [['C']] []
      (by decide)
  have s4 : StreamStep (fun s => (some s : Option (List Char)))
      (fun s => (Except.ok s : Except String (List Char)))
      ⟨[], [], [[['B']], [['C']]], [OutLine.response ['A']]⟩
      ⟨[], [], [[['B']], []], [OutLine.response ['A'], OutLine.response ['C']]⟩ :=
    StreamStep.work [] [] [[['B']]] ['C'] [] [] [OutLine.response ['A']]
  have s5 : StreamStep (fun s => (some s : Option (List Char)))
      (fun s => (Except.ok s : Except String (List Char)))
      ⟨[], [], [[['B']], []], [OutLine.response ['A'], OutLine.response ['C']]⟩
      ⟨[], [], [[], []],
       [OutLine.response ['A'], OutLine.response ['C'], OutLine.response ['B']]⟩ :=
    StreamStep.work [] [] [] ['B'] [] [[]] [OutLine.response ['A'], OutLine.response ['C']]
  exact .head s1 (.head s2 (.head s3 (.head s4 (.head s5 .refl))))

/-- Claim C3 as amended: within one streaming connection, as long as each
batch of complete lines is fully processed before the next chunk's `data`
event fires (sequential chunk delivery), the response channel carries
exactly one line per nonempty complete input line, in strict input order —
a response line for each successfully parsed-and-handled line, an
internal-error line (code -32603) for each line whose handler throws, and
a parse-error line (code -32700) for each malformed line — and a malformed
line never terminates the connection (processing is total and later lines
are still answered).  When an awaited handler call is still pending as a
later chunk arrives, lines of the later chunk may be answered first
(`c3_counterexample_cross_chunk_reorder`). -/
theorem processChunksSeq_eq_filterMap {μ ρ : Type} (parse : List Char → Option μ)
    (handle : μ → Except String ρ) (chunks : List (List Char)) (buffer : List Char) :
    processChunksSeq parse handle chunks buffer =
      (streamLines buffer chunks).filterMap (processLine parse handle) := by
  induction chunks generalizing buffer with
  | nil => rfl
  | cons c cs ih =>
      show (splitChunk buffer c).1.filterMap (processLine parse handle) ++
          processChunksSeq parse handle cs (splitChunk buffer c).2 = _
      rw [ih]
      show _ = ((splitChunk buffer c).1 ++
          streamLines (splitChunk buffer c).2 cs).filterMap (processLine parse handle)
      rw [List.filterMap_append]

theorem c3_streaming_per_line_in_order :
    ∀ {μ ρ : Type} (parse : List Char → Option μ) (handle : μ → Except String ρ)
      (chunks : List (List Char)) (buffer : List Char),
      processChunksSeq parse handle chunks buffer =
        (streamLines buffer chunks).filterMap (processLine parse handle) ∧
      (processChunksSeq parse handle chunks buffer).length =
        ((streamLines buffer chunks).filter (fun l => decide (jsTrim l ≠ []))).length ∧
      (∀ l, jsTrim l ≠ [] → parse (jsTrim l) = none →
        processLine parse handle l = some (OutLine.parseError "Parse error")) ∧
      (∀ l m r, jsTrim l ≠ [] → parse (jsTrim l) = some m → handle m = .ok r →
        processLine parse handle l = some (OutLine.response r)) ∧
      (∀ l m e, jsTrim l ≠ [] → parse (jsTrim l) = some m → handle m = .error e →
        processLine parse handle l = some (OutLine.handlerError e)) := by
  intro μ ρ parse handle chunks buffer
  refine ⟨processChunksSeq_eq_filterMap parse handle chunks buffer, ?_, ?_, ?_, ?_⟩
  · rw [processChunksSeq_eq_filterMap, filterMap_processLine_length]
  · intro l hne hp
    rw [processLine]
    simp only [if_neg hne, hp]
  · intro l m r hne hp hh
    rw [processLine]
    simp only [if_neg hne, hp, hh]
  · intro l m e hne hp hh
    rw [processLine]
    simp only [if_neg hne, hp, hh]

/-- Claim C3 witness: a parser that rejects line `B`: the stream
`"A\nB\n" ++ "C\n"` under sequential delivery answers `A` with a response
line, `B` with a parse-error line, and still answers `C` — one output line
per input line, in input order. -/
theorem c3_streaming_per_line_in_order_witness :
    processChunksSeq (fun s => if s = ['B'] then none else (some s : Option (List Char)))
        (fun s => (Except.ok s : Except String (List Char)))
        [['A', '\n', 'B', '\n'], ['C', '\n']] [] =
      (streamLines [] [['A', '\n', 'B', '\n'], ['C', '\n']]).filterMap
        (processLine (fun s => if s = ['B'] then none else (some s : Option (List Char)))
          (fun s => (Except.ok s : Except String (List Char)))) ∧
    (jsTrim ['B'] ≠ [] ∧
      processLine (fun s => if s = ['B'] then none else (some s : Option (List Char)))
          (fun s => (Except.ok s : Except String (List Char))) ['B'] =
        some (OutLine.parseError "Parse error")) ∧
    processChunksSeq (fun s => if s = ['B'] then none else (some s : Option (List Char)))
        (fun s => (Except.ok s : Except String (List Char)))
        [['A', '\n', 'B', '\n'], ['C', '\n']] [] =
      [OutLine.response ['A'], OutLine.parseError "Parse error",
       OutLine.response ['C']] := by
  refine ⟨(c3_streaming_per_line_in_order
      (fun s => if s = ['B'] then none else (some s : Option (List Char)))
      (fun s => (Except.ok s : Except String (List Char)))
      [['A', '\n', 'B', '\n'], ['C', '\n']] []).1,
    ⟨by decide, (c3_streaming_per_line_in_order
      (fun s => if s = ['B'] then none else (some s : Option (List Char)))
      (fun s => (Except.ok s : Except String (List Char)))
      [['A', '\n', 'B', '\n'], ['C', '\n']] []).2.2.1
      ['B'] (by decide) (by decide)⟩, by decide⟩

/-! ## Registry staleness theorems (claim C9) -/

theorem mem_mapSet {κ α : Type} [DecidableEq κ] (m : List (κ × α)) (k : κ) (v : α)
    (q : κ × α) (hq : q ∈ mapSet m k v) : q = (k, v) ∨ q ∈ m := by
  induction m with
  | nil => simpa [mapSet] using hq
  | cons p rest ih =>
      obtain ⟨k', v'⟩ := p
      by_cases h : k' = k
      · rw [mapSet, if_pos h] at hq
        rcases List.mem_cons.mp hq with h1 | h1
        · exact Or.inl h1
        · exact Or.inr (List.mem_cons_of_mem _ h1)
      · rw [mapSet, if_neg h] at hq
        rcases List.mem_cons.mp hq with h1 | h1
        · exact Or.inr (by simp [h1])
        · rcases ih h1 with h2 | h2
          · exact Or.inl h2
          · exact Or.inr (List.mem_cons_of_mem _ h2)

theorem mem_mapDelete {κ α : Type} [DecidableEq κ] (m : List (κ × α)) (k : κ)
    (q : κ × α) (hq : q ∈ mapDelete m k) : q ∈ m := by
  induction m with
  | nil => simpa [mapDelete] using hq
  | cons p rest ih =>
      obtain ⟨k', v'⟩ := p
      by_cases h : k' = k
      · rw [mapDelete, if_pos h] at hq
        exact List.mem_cons_of_mem _ (ih hq)
      · rw [mapDelete, if_neg h] at hq
        rcases List.mem_cons.mp hq with h1 | h1
        · exact by simp [h1]
        · exact List.mem_cons_of_mem _ (ih h1)

theorem foldr_max_le (xs : List Nat) (T : Nat) (h : ∀ x ∈ xs, x ≤ T) :
    xs.foldr max 0 ≤ T := by
  induction xs with
  | nil => exact Nat.zero_le T
  | cons x rest ih =>
      simp only [List.foldr_cons]
      exact Nat.max_le.mpr ⟨h x (by simp), ih (fun y hy => h y (by simp [hy]))⟩

theorem mem_le_foldr_max (xs : List Nat) (x : Nat) (hx : x ∈ xs) :
    x ≤ xs.foldr max 0 := by
  induction xs with
  | nil => simp at hx
  | cons y rest ih =>
      rcases List.mem_cons.mp hx with h | h
      · subst h
        exact Nat.le_max_left _ _
      · exact le_trans (ih h) (Nat.le_max_right _ _)

theorem foldr_max_append_singleton (xs : List Nat) (t : Nat) :
    (xs ++ [t]).foldr max 0 = max (xs.foldr max 0) t := by
  induction xs with
  | nil => simp [Nat.max_comm]
  | cons x rest ih =>
      simp only [List.cons_append, List.foldr_cons, ih]
      rw [Nat.max_assoc]

theorem hbTimes_append (xs ys : List RegEvent) :
    hbTimes (xs ++ ys) = hbTimes xs ++ hbTimes ys :=
  List.filterMap_append xs ys _

theorem hbTimes_le (p : List RegEvent) (T : Nat)
    (h : ∀ a ∈ p, eventTime a ≤ T) : ∀ x ∈ hbTimes p, x ≤ T := by
  intro x hx
  obtain ⟨ev, hev, hfx⟩ := List.mem_filterMap.mp hx
  rcases ev with ⟨cid, tok, ok, t⟩ | ⟨cid, ok, t⟩ | ⟨cid, t⟩ | ⟨outc, t⟩ | t
  · simp at hfx
  · simp at hfx
  · simp at hfx
  · have ht : t = x := by simpa using hfx
    subst ht
    exact h _ hev
  · simp at hfx

theorem maxHbTime_le (p : List RegEvent) (T : Nat)
    (h : ∀ a ∈ p, eventTime a ≤ T) : maxHbTime p ≤ T :=
  foldr_max_le _ T (hbTimes_le p T h)

theorem le_maxHbTime (p : List RegEvent) (x : Nat) (hx : x ∈ hbTimes p) :
    x ≤ maxHbTime p :=
  mem_le_foldr_max _ x hx

theorem runTrace_append (p : List RegEvent) (e : RegEvent) :
    runTrace (p ++ [e]) = regStep (runTrace p) e := by
  simp [runTrace, List.foldl_append]

/-- The staleness invariant: along any chronological trace, every live
entry's `lastActivity` is at least the latest heartbeat tick seen so far —
a successful heartbeat write refreshes it, a failed write removes the
entry, and entries registered or written after the tick carry later
times. -/
theorem runTrace_lastActivity_ge (es : List RegEvent)
    (h : es.Pairwise (fun a b => eventTime a ≤ eventTime b)) :
    ∀ q ∈ runTrace es, maxHbTime es ≤ q.2.lastActivity := by
  induction es using List.reverseRecOn with
  | nil =>
      intro q hq
      simp [runTrace] at hq
  | append_singleton p e ih =>
      have hsplit := List.pairwise_append.mp h
      have hp := hsplit.1
      have hle : ∀ a ∈ p, eventTime a ≤ eventTime e :=
        fun a ha => hsplit.2.2 a ha e (by simp)
      have hmaxp : maxHbTime p ≤ eventTime e := maxHbTime_le p _ hle
      intro q hq
      rw [runTrace_append] at hq
      rcases e with ⟨cid, tok, ok, t⟩ | ⟨cid, ok, t⟩ | ⟨cid, t⟩ | ⟨outc, t⟩ | t
      · -- add
        have hmax : maxHbTime (p ++ [RegEvent.add cid tok ok t]) = maxHbTime p := by
          rw [maxHbTime, hbTimes_append]
          simp [hbTimes, maxHbTime]
        rw [hmax]
        have hq' : q = (cid, ⟨tok, t, t⟩) ∨ q ∈ runTrace p := by
          rcases ok with - | -
          · rcases mem_mapDelete _ _ _ hq with h1
            rcases mem_mapSet _ _ _ _ h1 with h2 | h2
            · exact Or.inl h2
            · exact Or.inr h2
          · rcases mem_mapSet _ _ _ _ hq with h1 | h1
            · exact Or.inl h1
            · rcases mem_mapSet _ _ _ _ h1 with h2 | h2
              · exact Or.inl h2
              · exact Or.inr h2
        rcases hq' with h1 | h1
        · rw [h1]
          exact hmaxp
        · exact ih hp q h1
      · -- send
        have hmax : maxHbTime (p ++ [RegEvent.send cid ok t]) = maxHbTime p := by
          rw [maxHbTime, hbTimes_append]
          simp [hbTimes, maxHbTime]
        rw [hmax]
        simp only [regStep] at hq
        rcases hg : mapGet (runTrace p) cid with - | c
        · rw [hg] at hq
          exact ih hp q hq
        · rw [hg] at hq
          rcases ok with - | -
          · exact ih hp q (mem_mapDelete _ _ _ hq)
          · rcases mem_mapSet _ _ _ _ hq with h1 | h1
            · rw [h1]
              exact hmaxp
            · exact ih hp q h1
      · -- close
        have hmax : maxHbTime (p ++ [RegEvent.close cid t]) = maxHbTime p := by
          rw [maxHbTime, hbTimes_append]
          simp [hbTimes, maxHbTime]
        rw [hmax]
        exact ih hp q (mem_mapDelete _ _ _ hq)
      · -- heartbeat
        have hmax : maxHbTime (p ++ [RegEvent.heartbeat outc t]) =
            max (maxHbTime p) t := by
          rw [maxHbTime, hbTimes_append]
          show (hbTimes p ++ [t]).foldr max 0 = _
          exact foldr_max_append_singleton _ t
        rw [hmax]
        simp only [regStep, heartbeatStep] at hq
        obtain ⟨a, -, ha⟩ := List.mem_map.mp hq
        have hla : q.2.lastActivity = t := by
          rw [← ha]
        rw [hla]
        exact Nat.max_le.mpr ⟨hmaxp, Nat.le_refl t⟩
      · -- sweep
        have hmax : maxHbTime (p ++ [RegEvent.sweep t]) = maxHbTime p := by
          rw [maxHbTime, hbTimes_append]
          simp [hbTimes, maxHbTime]
        rw [hmax]
        simp only [regStep, cleanupStep] at hq
        exact ih hp q (List.mem_of_mem_filter hq)

/-- Claim C9: in the timer-driven step model — heartbeats broadcast at
every positive multiple of 30 s with each write either succeeding (and
resetting `lastActivity`) or throwing (and removing the connection), and
the staleness sweep running at multiples of 60 s with a 5-minute
threshold — every live entry was written at most 30 s before any sweep
tick, so the sweep never finds anything to evict. -/
theorem c9_sweep_never_evicts :
    ∀ (es : List RegEvent), ValidTrace es →
      ∀ (i t : Nat), es.get? i = some (.sweep t) →
        staleConnections (runTrace (es.take i)) t = [] := by
  intro es hv i t hi
  obtain ⟨hchrono, hhb, hgrid⟩ := hv
  have hsweep_mem : (RegEvent.sweep t) ∈ es := List.get?_mem hi
  have hsw : t % 60000 = 0 ∧ t ≠ 0 := by
    have := hgrid _ hsweep_mem
    simpa [onTimerGrid] using this
  have ht60 : 60000 ≤ t := by omega
  -- a heartbeat fired at time t - 30000
  have hbat : hbAt es (30000 * ((t - 30000) / 30000)) = true := by
    refine hhb _ hsweep_mem ((t - 30000) / 30000) ?_ ?_
    · show (t - 30000) / 30000 ≤ t / 30000
      omega
    · omega
  have h30 : 30000 * ((t - 30000) / 30000) = t - 30000 := by omega
  rw [h30] at hbat
  obtain ⟨T, hT⟩ : ∃ T, T = t - 30000 := ⟨t - 30000, rfl⟩
  rw [← hT] at hbat
  obtain ⟨ev, hev_mem, hev⟩ := List.any_eq_true.mp hbat
  have hev' : ∃ o, ev = RegEvent.heartbeat o T := by
    rcases ev with ⟨cid, tok, ok, t'⟩ | ⟨cid, ok, t'⟩ | ⟨cid, t'⟩ | ⟨outc, t'⟩ | t' <;>
      simp at hev
    exact ⟨outc, by rw [hev]⟩
  obtain ⟨o, rfl⟩ := hev'
  -- that heartbeat sits strictly before the sweep in the trace
  have hmem_take : (RegEvent.heartbeat o T) ∈ es.take i := by
    have hmem2 : RegEvent.heartbeat o T ∈ es.take i ++ es.drop i := by
      rw [List.take_append_drop i es]
      exact hev_mem
    rcases List.mem_append.mp hmem2 with hmem | hmem
    · exact hmem
    · exfalso
      obtain ⟨hilen, higet⟩ := List.get?_eq_some.mp hi
      have hdrop : es.drop i = RegEvent.sweep t :: es.drop (i + 1) := by
        rw [List.drop_eq_get_cons hilen, higet]
      rw [hdrop] at hmem
      rcases List.mem_cons.mp hmem with h1 | h1
      · simp at h1
      · have hpd : (es.drop i).Pairwise (fun a b => eventTime a ≤ eventTime b) :=
          hchrono.sublist (List.drop_sublist i es)
        rw [hdrop] at hpd
        have hle := (List.pairwise_cons.mp hpd).1 _ h1
        have hcontra : t ≤ T := hle
        omega
  have hhbtimes : T ∈ hbTimes (es.take i) :=
    List.mem_filterMap.mpr ⟨RegEvent.heartbeat o T, hmem_take, rfl⟩
  have hmaxge : T ≤ maxHbTime (es.take i) := le_maxHbTime _ _ hhbtimes
  have hchrono_take : (es.take i).Pairwise (fun a b => eventTime a ≤ eventTime b) :=
    hchrono.sublist (List.take_sublist i es)
  have hinv := runTrace_lastActivity_ge (es.take i) hchrono_take
  rw [staleConnections]
  refine List.filter_eq_nil_iff.mpr ?_
  intro q hq
  have hla := hinv q hq
  simp only [decide_eq_true_eq]
  omega

/-- Claim C9 witness: a connection registered at 1 s, heartbeats at 30 s
and 60 s (all writes succeeding), and the first sweep at 60 s: the sweep
finds nothing stale. -/
theorem c9_sweep_never_evicts_witness :
    ValidTrace
      [RegEvent.add "a" ⟨"m", .master, [], none, 0, none, none⟩ true 1000,
       RegEvent.heartbeat (fun _ => true) 30000,
       RegEvent.heartbeat (fun _ => true) 60000,
       RegEvent.sweep 60000] ∧
    staleConnections
      (runTrace
        ([RegEvent.add "a" ⟨"m", .master, [], none, 0, none, none⟩ true 1000,
          RegEvent.heartbeat (fun _ => true) 30000,
          RegEvent.heartbeat (fun _ => true) 60000,
          RegEvent.sweep 60000].take 3)) 60000 = [] := by
  have hv : ValidTrace
      [RegEvent.add "a" ⟨"m", .master, [], none, 0, none, none⟩ true 1000,
       RegEvent.heartbeat (fun _ => true) 30000,
       RegEvent.heartbeat (fun _ => true) 60000,
       RegEvent.sweep 60000] := by
    refine ⟨by decide, by decide, by decide⟩
  exact ⟨hv, c9_sweep_never_evicts _ hv 3 60000 rfl⟩

end Backlog
